import Mathlib

/-!
Portofolio: the carousel, the swipe recogniser, the scroll-spy fallback and the counter

A shallow embedding of the interactive core of `src/script.js`:

* `setupCarousel` (lines 310-458) with its inner functions `createDots`,
  `updateCarousel`, `goToSlide`, `updateDots`, `nextSlide`, `prevSlide`,
  `toggleViewAll`, the touch handlers and the resize handler;
* the debounced scroll fallback of `setupScrollSpy` (lines 110-120);
* the frame callback `step` of `setupAboutCounters` (lines 465-479).

JavaScript numbers are IEEE 754 doubles. Indices, element counts, widths and their
pixel products are integers far below `2 ^ 53`, on which double arithmetic is exact:
they are modelled as integers, and `Math.ceil(totalCards / cardsPerView)` as the
ceiling of the exact quotient (for a card count and a divisor of 1 or 3 the double
quotient has the same ceiling). Touch coordinates, the scroll position and timestamps
are doubles: a finite double is modelled by the rational it denotes, a number handed
over by the host enters through `roundDouble`, and every `+`, `-`, `*`, `/` on such
numbers is the exact operation followed by `roundDouble`, rounding to the nearest
double with ties to the even significand (53 bits, gradual underflow). Overflow to
an infinity is not modelled: the exponent range is unbounded above.

A JavaScript function that raises a `TypeError` half way keeps the assignments it
made before: an operation therefore returns a `Run`, the state it left behind
together with a flag telling whether it raised.
-/

namespace Portofolio

/-! ## Doubles -/

/-- Nearest integer, a tie going to the even neighbour. -/
def roundHalfEven (y : ℚ) : ℤ :=
  let f := ⌊y⌋
  let r := y - f
  if r < 1 / 2 then f else if 1 / 2 < r then f + 1 else if f % 2 = 0 then f else f + 1

/-- Exponent `e` of the binade `2 ^ e ≤ |x| < 2 ^ (e + 1)` a double near `x` lies in,
not below the exponent -1022 of the smallest normal doubles. -/
def binade (x : ℚ) : ℤ :=
  max (Int.log 2 |x|) (-1022)

/-- The double nearest to `x`: `x` is rounded to a multiple of the unit in the last
place `2 ^ (binade x - 52)` of its binade, ties to the even significand. -/
def roundDouble (x : ℚ) : ℚ :=
  roundHalfEven (x / 2 ^ (binade x - 52)) * 2 ^ (binade x - 52)

/-- Double subtraction `a - b`. -/
def dsub (a b : ℚ) : ℚ := roundDouble (a - b)

/-- Double addition `a + b`. -/
def dadd (a b : ℚ) : ℚ := roundDouble (a + b)

/-- Double multiplication `a * b`. -/
def dmul (a b : ℚ) : ℚ := roundDouble (a * b)

/-- Double division `a / b`. -/
def ddiv (a b : ℚ) : ℚ := roundDouble (a / b)

/-! ## The document as `setupCarousel` finds it -/

/-- What `setupCarousel` reads from the host: which of the five elements
`document.getElementById` finds, how many `.card` elements the track holds, and the
two layout readouts `window.innerWidth` and `cards[0].offsetWidth`. -/
structure Page where
  track : Bool
  prevBtn : Bool
  nextBtn : Bool
  dotsContainer : Bool
  viewAllBtn : Bool
  cards : Nat
  innerWidth : Int
  cardOffsetWidth : Int
  deriving DecidableEq, Repr

/-- The styles `updateCarousel` writes to the track and to the two arrow buttons:
nothing written yet, the wrapped "all items" layout with hidden arrows, or the paged
layout `translateX(<px>px)` with visible arrows. -/
inductive Layout where
  | untouched : Layout
  | viewAll : Layout
  | paged (translateX : Int) : Layout
  deriving DecidableEq, Repr

/-- The closure of `setupCarousel` after its guard: the captured elements and
constants, the mutable variables, the host readouts the inner functions consult, the
DOM they write, and which listeners have been registered so far. -/
structure Carousel where
  /-- Whether the captured `dotsContainer` is non-null. -/
  dotsContainer : Bool
  /-- Whether the captured `viewAllBtn` is non-null. -/
  viewAllBtn : Bool
  /-- Constant `totalCards = cards.length`. -/
  totalCards : Nat
  /-- Constant `cardsPerView`, fixed by `setupCarousel`. -/
  cardsPerView : Nat
  /-- Variable `currentIndex`. -/
  currentIndex : Int
  /-- Variable `isViewAll`. -/
  isViewAll : Bool
  /-- Variable `startX`. -/
  startX : ℚ
  /-- Variable `isDragging`. -/
  isDragging : Bool
  /-- Current `window.innerWidth`. -/
  innerWidth : Int
  /-- Current `cards[0].offsetWidth` (meaningful when there is a first card). -/
  cardOffsetWidth : Int
  /-- Styles last written by `updateCarousel`. -/
  layout : Layout
  /-- Number of dot buttons inside `dotsContainer`. -/
  dots : Nat
  /-- Index of the dot carrying the class `active`, if any. -/
  activeDot : Option Nat
  /-- Text written to `viewAllBtn` by `toggleViewAll`, if any. -/
  viewAllText : Option String
  /-- The keydown and touch listeners (lines 414-447) are registered. -/
  keysAndTouch : Bool
  /-- The resize listener (lines 454-457) is registered. -/
  resizeListener : Bool
  deriving DecidableEq, Repr

/-- Outcome of running a piece of the script: the state left behind and whether a
`TypeError` was raised on the way. -/
structure Run where
  state : Carousel
  threw : Bool
  deriving DecidableEq, Repr

/-- Normal completion. -/
def Run.ok (s : Carousel) : Run := ⟨s, false⟩

/-- Abrupt completion: the statement raised, the writes made so far stay. -/
def Run.raise (s : Carousel) : Run := ⟨s, true⟩

/-- Statement sequencing `a; b`: `b` runs only when `a` did not raise. -/
def Run.andThen (r : Run) (f : Carousel → Run) : Run :=
  if r.threw then r else f r.state

/-! ## Inner functions of `setupCarousel` -/

/-- The breakpoint rule `window.innerWidth <= 768 ? 1 : 3`. -/
def cardsPerViewAt (innerWidth : Int) : Nat :=
  if innerWidth ≤ 768 then 1 else 3

/-- The expression `Math.ceil(totalCards / cardsPerView)`. -/
def totalPages (s : Carousel) : Int :=
  ⌈(s.totalCards : ℚ) / (s.cardsPerView : ℚ)⌉

/-- The local `const maxIndex = Math.ceil(totalCards / cardsPerView) - 1`. -/
def maxIndex (s : Carousel) : Int :=
  totalPages s - 1

/-- Function `createDots` (lines 326-338). -/
def createDots (s : Carousel) : Run :=
  if !s.dotsContainer then Run.ok s
  else
    let totalDots := totalPages s
    Run.ok { s with dots := totalDots.toNat
                    activeDot := if 0 < totalDots then some 0 else none }

/-- Function `updateCarousel` (lines 341-359). Reading `cards[0].offsetWidth` raises
when there is no card; writing `dotsContainer.style.display` raises when the dots
container is absent, after the track and arrow styles have been written. -/
def updateCarousel (s : Carousel) : Run :=
  if s.isViewAll then
    let s1 := { s with layout := Layout.viewAll }
    if !s.dotsContainer then Run.raise s1 else Run.ok s1
  else
    if s.totalCards = 0 then Run.raise s
    else
      let cardWidth := s.cardOffsetWidth + 32
      let translateX := -s.currentIndex * cardWidth * (s.cardsPerView : Int)
      let s1 := { s with layout := Layout.paged translateX }
      if !s.dotsContainer then Run.raise s1 else Run.ok s1

/-- Function `updateDots` (lines 370-375): `dotsContainer.querySelectorAll` raises
when the container is absent; otherwise exactly the dot whose position equals
`currentIndex` is active. -/
def updateDots (s : Carousel) : Run :=
  if !s.dotsContainer then Run.raise s
  else
    let active : Option Nat :=
      if 0 ≤ s.currentIndex ∧ s.currentIndex < (s.dots : Int) then some s.currentIndex.toNat
      else none
    Run.ok { s with activeDot := active }

/-- Function `goToSlide` (lines 362-367). -/
def goToSlide (index : Int) (s : Carousel) : Run :=
  let maxIndex := maxIndex s
  let s1 := { s with currentIndex := max 0 (min index maxIndex) }
  (updateCarousel s1).andThen updateDots

/-- Function `nextSlide` (lines 378-387). -/
def nextSlide (s : Carousel) : Run :=
  let maxIndex := maxIndex s
  let s1 :=
    if s.currentIndex < maxIndex then { s with currentIndex := s.currentIndex + 1 }
    else { s with currentIndex := 0 }
  (updateCarousel s1).andThen updateDots

/-- Function `prevSlide` (lines 390-399). -/
def prevSlide (s : Carousel) : Run :=
  let maxIndex := maxIndex s
  let s1 :=
    if s.currentIndex > 0 then { s with currentIndex := s.currentIndex - 1 }
    else { s with currentIndex := maxIndex }
  (updateCarousel s1).andThen updateDots

/-- Function `toggleViewAll` (lines 402-406): the flag is flipped first, then the
button text is written (raising when the button is absent), then the layout. -/
def toggleViewAll (s : Carousel) : Run :=
  let s1 := { s with isViewAll := !s.isViewAll }
  if !s1.viewAllBtn then Run.raise s1
  else
    updateCarousel
      { s1 with viewAllText := some (if s1.isViewAll then "Show Less" else "View All") }

/-! ## Touch handlers, setup and the event loop -/

/-- Listener of `touchstart` (lines 423-426), `clientX` being
`e.touches[0].clientX`, read as a double. -/
def touchstart (clientX : ℚ) (s : Carousel) : Run :=
  Run.ok { s with startX := roundDouble clientX, isDragging := true }

/-- Listener of `touchmove` (lines 428-431): it only calls `preventDefault` while a
session is active, the closure is left as it is. -/
def touchmove (s : Carousel) : Run :=
  if !s.isDragging then Run.ok s else Run.ok s

/-- Listener of `touchend` (lines 433-447), `clientX` being
`e.changedTouches[0].clientX`, read as a double; `diff` is the double difference. -/
def touchend (clientX : ℚ) (s : Carousel) : Run :=
  if !s.isDragging then Run.ok s
  else
    let s1 := { s with isDragging := false }
    let endX := roundDouble clientX
    let diff := dsub s1.startX endX
    if |diff| > 50 then
      if diff > 0 then nextSlide s1 else prevSlide s1
    else Run.ok s1

/-- Listener of `resize` (lines 454-457). -/
def onResize (s : Carousel) : Run :=
  (createDots s).andThen updateCarousel

/-- Function `setupCarousel` (lines 310-458). `none` is the guarded return of line
317. Otherwise the closure is created and the listeners are registered in source
order: the two arrow clicks, the view-all click (which raises when `viewAllBtn` is
null), keydown and touch, then `createDots(); updateCarousel();`, and at last the
resize listener, reached only when nothing raised before. -/
def setupCarousel (p : Page) : Option Run :=
  if !p.track || !p.prevBtn || !p.nextBtn then none
  else
    let s0 : Carousel :=
      { dotsContainer := p.dotsContainer
        viewAllBtn := p.viewAllBtn
        totalCards := p.cards
        cardsPerView := cardsPerViewAt p.innerWidth
        currentIndex := 0
        isViewAll := false
        startX := 0
        isDragging := false
        innerWidth := p.innerWidth
        cardOffsetWidth := p.cardOffsetWidth
        layout := Layout.untouched
        dots := 0
        activeDot := none
        viewAllText := none
        keysAndTouch := false
        resizeListener := false }
    if !p.viewAllBtn then some (Run.raise s0)
    else
      let s1 := { s0 with keysAndTouch := true }
      let r := (createDots s1).andThen updateCarousel
      if r.threw then some r
      else some (Run.ok { r.state with resizeListener := true })

/-- The events the carousel listens to. A resize carries the new values of
`window.innerWidth` and `cards[0].offsetWidth`. -/
inductive Event where
  | prevClick : Event
  | nextClick : Event
  | dotClick (i : Nat) : Event
  | viewAllClick : Event
  | arrowLeft : Event
  | arrowRight : Event
  | touchstart (clientX : ℚ) : Event
  | touchmove : Event
  | touchend (clientX : ℚ) : Event
  | resize (innerWidth cardOffsetWidth : Int) : Event
  deriving DecidableEq, Repr

/-- Dispatch of one event to the listener registered for it, if there is one: dot
`i` exists when `i < dots` and calls `goToSlide(i)` (line 335); the view-all click
listener exists when the button does (line 411); keydown and touch listeners exist
when registration got that far; a resize first changes the readouts. -/
def fire (e : Event) (s : Carousel) : Run :=
  match e with
  | Event.prevClick => prevSlide s
  | Event.nextClick => nextSlide s
  | Event.dotClick i => if i < s.dots then goToSlide (i : Int) s else Run.ok s
  | Event.viewAllClick => if s.viewAllBtn then toggleViewAll s else Run.ok s
  | Event.arrowLeft => if s.keysAndTouch then prevSlide s else Run.ok s
  | Event.arrowRight => if s.keysAndTouch then nextSlide s else Run.ok s
  | Event.touchstart x => if s.keysAndTouch then touchstart x s else Run.ok s
  | Event.touchmove => if s.keysAndTouch then touchmove s else Run.ok s
  | Event.touchend x => if s.keysAndTouch then touchend x s else Run.ok s
  | Event.resize w cw =>
    let s1 := { s with innerWidth := w, cardOffsetWidth := cw }
    if s.resizeListener then onResize s1 else Run.ok s1

/-- States the carousel of page `p` can be in: the one `setupCarousel` leaves, and
every state left by a listener run from such a state. -/
inductive Reachable (p : Page) : Carousel → Prop where
  | setup {r : Run} : setupCarousel p = some r → Reachable p r.state
  | fire {s : Carousel} (e : Event) : Reachable p s → Reachable p (fire e s).state

/-- The invariant of the carousel state as the specification words it: in paged
mode with at least one item `0 ≤ currentIndex ≤ ceil(totalItems / pageSize) - 1`,
and with no item `currentIndex = 0`. -/
def SpecInvariant (s : Carousel) : Prop :=
  (s.isViewAll = false ∧ 0 < s.totalCards →
      0 ≤ s.currentIndex ∧ s.currentIndex ≤ totalPages s - 1) ∧
  (s.totalCards = 0 → s.currentIndex = 0)

/-- The clamp bound of the specification, `max(0, ceil(totalItems / pageSize) - 1)`. -/
def specMaxIndex (s : Carousel) : Int :=
  max 0 (totalPages s - 1)

/-- Repeated clicks on the next arrow: `n` runs of `nextSlide`, each started from the
state the previous one left. -/
def nextSlideTimes : Nat → Carousel → Carousel
  | 0, s => s
  | n + 1, s => (nextSlide (nextSlideTimes n s)).state

/-- What a listener may do to the navigation state: constants and captured elements
stay, and the index is kept, or clamped as by `goToSlide`, or advanced as by
`nextSlide`, or moved back as by `prevSlide`. -/
def NavStep (s t : Carousel) : Prop :=
  t.totalCards = s.totalCards ∧ t.cardsPerView = s.cardsPerView ∧
  t.dotsContainer = s.dotsContainer ∧ t.viewAllBtn = s.viewAllBtn ∧
  (t.currentIndex = s.currentIndex ∨
   (∃ i : Int, t.currentIndex = max 0 (min i (maxIndex s))) ∨
   t.currentIndex = (if s.currentIndex < maxIndex s then s.currentIndex + 1 else 0) ∨
   t.currentIndex = (if s.currentIndex > 0 then s.currentIndex - 1 else maxIndex s))

/-! ## Concrete pages -/

/-- A page with all five carousel elements and seven cards, 300 pixels wide each,
opened in a viewport 1024 pixels wide. -/
def desktopPage : Page :=
  { track := true, prevBtn := true, nextBtn := true, dotsContainer := true
    viewAllBtn := true, cards := 7, innerWidth := 1024, cardOffsetWidth := 300 }

/-- The same page with an empty track: no `.card` element at all. -/
def emptyPage : Page :=
  { desktopPage with cards := 0, cardOffsetWidth := 0 }

/-- The same page as `desktopPage` without the element `carouselDots`. -/
def pageWithoutDots : Page :=
  { desktopPage with dotsContainer := false }

/-- The same page as `desktopPage` without the element `viewAllBtn`. -/
def pageWithoutViewAll : Page :=
  { desktopPage with viewAllBtn := false }

/-! ## Scroll-spy fallback (`setupScrollSpy`) -/

/-- One `section[id]` element: its `id` and its `offsetTop`, an integer number of
pixels. -/
structure Section where
  id : String
  offsetTop : Int
  deriving DecidableEq, Repr

/-- The local `scrollPos = window.scrollY + headerHeight + 20` (line 113):
`window.scrollY` is read as a double, `headerHeight` is the integer
`header.offsetHeight` (or 0), and the two additions are double additions, left to
right. -/
def scrollPos (headerHeight : Int) (scrollY : ℚ) : ℚ :=
  dadd (dadd (roundDouble scrollY) (headerHeight : ℚ)) 20

/-- Body of the debounced scroll listener of `setupScrollSpy` (lines 111-120): the
id handed to `setActiveLink`. The listener is registered only behind the guard of
line 84, so it never runs on an empty section list (`none`). -/
def scrollFallback (sections : List Section) (headerHeight : Int) (scrollY : ℚ) :
    Option String :=
  match sections with
  | [] => none
  | first :: _ =>
    let scrollPos := scrollPos headerHeight scrollY
    some (sections.foldl
      (fun currentId sec => if scrollPos ≥ (sec.offsetTop : ℚ) then sec.id else currentId)
      first.id)

/-- The section the specification names: the last one in document order whose
`topOffset ≤ scrollY + headerHeight + 20`, the sum being the one the script computes,
or the first section when none qualifies. -/
def specCurrentSection (first : Section) (rest : List Section)
    (headerHeight : Int) (scrollY : ℚ) : String :=
  match ((first :: rest).filter
      (fun sec => decide ((sec.offsetTop : ℚ) ≤ scrollPos headerHeight scrollY))).getLast? with
  | some sec => sec.id
  | none => first.id

/-! ## Counter animation (`setupAboutCounters`) -/

/-- Constant `durationMs` (line 465). -/
def durationMs : ℚ := 1200

/-- What one run of the frame callback does: the number written to
`el.textContent` and whether `requestAnimationFrame(step)` is called again. -/
structure Frame where
  textContent : Int
  again : Bool
  deriving DecidableEq, Repr

/-- Frame callback `step` (lines 472-477) of a counter whose attribute `data-target`
parses to the integer `target`, started at `performance.now() = startTime` and run
with the frame timestamp `now`. The three numbers are read as doubles; the
difference, the quotient and the product are double operations, `Math.min` and
`Math.floor` are exact. -/
def step (target : Int) (startTime now : ℚ) : Frame :=
  let target := roundDouble (target : ℚ)
  let startTime := roundDouble startTime
  let now := roundDouble now
  let progress := min (ddiv (dsub now startTime) durationMs) 1
  let value := ⌊dmul progress target⌋
  { textContent := value, again := decide (progress < 1) }

/-- The value the specification announces for elapsed time `t`, in exact rational
arithmetic: `floor(min(t / durationMs, 1) * targetValue)`. -/
def specDisplayed (target : Int) (t : ℚ) : Int :=
  ⌊min (t / 1200) 1 * (target : ℚ)⌋

/-! ## Rounding to a double -/

theorem roundHalfEven_cases (y : ℚ) :
    roundHalfEven y = ⌊y⌋ ∨ roundHalfEven y = ⌊y⌋ + 1 := by
  unfold roundHalfEven
  dsimp only
  split_ifs <;> simp

theorem roundHalfEven_intCast (n : ℤ) : roundHalfEven (n : ℚ) = n := by
  unfold roundHalfEven
  simp

theorem roundHalfEven_close (y : ℚ) :
    y - 1 / 2 ≤ (roundHalfEven y : ℚ) ∧ (roundHalfEven y : ℚ) ≤ y + 1 / 2 := by
  have h1 := Int.floor_le y
  have h2 := Int.lt_floor_add_one y
  unfold roundHalfEven
  dsimp only
  split_ifs with a b c <;> push_cast <;> constructor <;> linarith

theorem roundHalfEven_le_int (y : ℚ) (N : ℤ) (h : y ≤ N) : roundHalfEven y ≤ N := by
  by_cases hy : y = (⌊y⌋ : ℚ)
  · rw [hy, roundHalfEven_intCast]
    exact Int.floor_le_iff.mpr (by linarith [Int.lt_floor_add_one y, h, (show (N:ℚ) < N + 1 by linarith)])
  · have hlt : (⌊y⌋ : ℚ) < y := lt_of_le_of_ne (Int.floor_le y) (Ne.symm hy)
    have : (⌊y⌋ : ℚ) < N := lt_of_lt_of_le hlt h
    have : ⌊y⌋ < N := by exact_mod_cast this
    rcases roundHalfEven_cases y with h' | h' <;> omega

theorem int_le_roundHalfEven (y : ℚ) (N : ℤ) (h : (N : ℚ) ≤ y) : N ≤ roundHalfEven y := by
  have : N ≤ ⌊y⌋ := Int.le_floor.mpr h
  rcases roundHalfEven_cases y with h' | h' <;> omega

theorem two_zpow_pos (k : ℤ) : (0 : ℚ) < 2 ^ k := zpow_pos (by norm_num) k

/-- The binade of a non-zero rational brackets its magnitude. -/
theorem log_bounds (x : ℚ) (hx : x ≠ 0) :
    (2 : ℚ) ^ Int.log 2 |x| ≤ |x| ∧ |x| < (2 : ℚ) ^ (Int.log 2 |x| + 1) := by
  have hpos : 0 < |x| := abs_pos.mpr hx
  have h1 := Int.zpow_log_le_self (b := 2) (r := |x|) (by norm_num) hpos
  have h2 := Int.lt_zpow_succ_log_self (b := 2) (by norm_num) |x|
  norm_num at h1 h2
  exact ⟨h1, h2⟩

theorem log_lt_of_lt_zpow (x : ℚ) (hx : x ≠ 0) (k : ℤ) (h : |x| < (2 : ℚ) ^ k) :
    Int.log 2 |x| < k := by
  have := (Int.lt_zpow_iff_log_lt (b := 2) (by norm_num) (abs_pos.mpr hx) (x := k)).mp
    (by norm_num; exact h)
  exact this

theorem le_log_of_zpow_le (x : ℚ) (hx : x ≠ 0) (k : ℤ) (h : (2 : ℚ) ^ k ≤ |x|) :
    k ≤ Int.log 2 |x| := by
  have := (Int.zpow_le_iff_le_log (b := 2) (by norm_num) (abs_pos.mpr hx) (x := k)).mp
    (by norm_num; exact h)
  exact this

theorem abs_lt_zpow_binade (x : ℚ) (hx : x ≠ 0) : |x| < (2 : ℚ) ^ (binade x + 1) := by
  have h := (log_bounds x hx).2
  refine lt_of_lt_of_le h (zpow_le_zpow_right₀ (by norm_num) ?_)
  unfold binade
  have := le_max_left (Int.log 2 |x|) (-1022)
  omega

theorem roundDouble_zero : roundDouble 0 = 0 := by
  unfold roundDouble
  rw [zero_div]
  have : roundHalfEven 0 = 0 := by simpa using roundHalfEven_intCast 0
  rw [this]
  simp

theorem abs_intCast_lt_two_pow (m : ℤ) (hm : |m| < 2 ^ 53) : |(m : ℚ)| < 2 ^ (53 : ℤ) := by
  have h : ((|m| : ℤ) : ℚ) < ((2 ^ 53 : ℤ) : ℚ) := by exact_mod_cast hm
  rw [Int.cast_abs] at h
  have e : (2 : ℚ) ^ (53 : ℤ) = ((2 ^ 53 : ℤ) : ℚ) := by norm_num
  rw [e]
  exact h

theorem scaled_div (m k c : ℤ) (hc : c ≤ k) :
    (m : ℚ) * 2 ^ k / 2 ^ c = ((m * 2 ^ (k - c).toNat : ℤ) : ℚ) := by
  have hk : k = c + ((k - c).toNat : ℤ) := by omega
  have hne : (2 : ℚ) ^ c ≠ 0 := ne_of_gt (two_zpow_pos _)
  push_cast
  rw [eq_comm, ← zpow_natCast, eq_div_iff hne, mul_assoc, ← zpow_add₀ (by norm_num : (2 : ℚ) ≠ 0)]
  congr 2
  omega

/-- A rational `m * 2 ^ k` with fewer than 54 significant bits and an exponent the
format has is a double: rounding leaves it alone. -/
theorem roundDouble_scaled_int (m k : ℤ) (hm : |m| < 2 ^ 53) (hk : -1074 ≤ k) :
    roundDouble ((m : ℚ) * 2 ^ k) = (m : ℚ) * 2 ^ k := by
  by_cases hm0 : m = 0
  · rw [hm0]; simp [roundDouble_zero]
  have hx : (m : ℚ) * 2 ^ k ≠ 0 :=
    mul_ne_zero (by exact_mod_cast hm0) (ne_of_gt (two_zpow_pos k))
  have habs : |(m : ℚ) * 2 ^ k| < (2 : ℚ) ^ (53 + k) := by
    rw [abs_mul, abs_of_pos (two_zpow_pos k), zpow_add₀ (by norm_num : (2 : ℚ) ≠ 0)]
    exact mul_lt_mul_of_pos_right (abs_intCast_lt_two_pow m hm) (two_zpow_pos k)
  have hlog := log_lt_of_lt_zpow _ hx _ habs
  have hb : binade ((m : ℚ) * 2 ^ k) - 52 ≤ k := by
    unfold binade
    rcases max_cases (Int.log 2 |(m : ℚ) * 2 ^ k|) (-1022) with ⟨h, _⟩ | ⟨h, _⟩ <;>
      rw [h] <;> omega
  have hne : (2 : ℚ) ^ (binade ((m : ℚ) * 2 ^ k) - 52) ≠ 0 := ne_of_gt (two_zpow_pos _)
  unfold roundDouble
  rw [scaled_div m k _ hb, roundHalfEven_intCast, ← scaled_div m k _ hb]
  field_simp

theorem binade_ge (x : ℚ) : -1022 ≤ binade x := le_max_right _ _

theorem binade_eq_of_bounds (x : ℚ) (e : ℤ) (he : -1022 ≤ e) (h1 : (2 : ℚ) ^ e ≤ |x|)
    (h2 : |x| < (2 : ℚ) ^ (e + 1)) : binade x = e := by
  have hx : x ≠ 0 := by
    intro h0
    rw [h0, abs_zero] at h1
    exact absurd h1 (not_le.mpr (two_zpow_pos e))
  have ha := le_log_of_zpow_le x hx e h1
  have hb := log_lt_of_lt_zpow x hx (e + 1) h2
  unfold binade
  rw [max_eq_left (by omega)]
  omega

/-- The significand the rounding picks has at most 54 bits. -/
theorem mantissa_abs_le (x : ℚ) : |roundHalfEven (x / 2 ^ (binade x - 52))| ≤ 2 ^ 53 := by
  by_cases hx : x = 0
  · rw [hx, zero_div]
    have : roundHalfEven 0 = 0 := by simpa using roundHalfEven_intCast 0
    rw [this]; norm_num
  have hq := two_zpow_pos (binade x - 52)
  have h := abs_lt_zpow_binade x hx
  have e : (2 : ℚ) ^ (binade x + 1) = 2 ^ (53 : ℤ) * 2 ^ (binade x - 52) := by
    rw [← zpow_add₀ (by norm_num : (2 : ℚ) ≠ 0)]
    congr 1
    omega
  rw [e] at h
  have habs : |x / 2 ^ (binade x - 52)| < 2 ^ (53 : ℤ) := by
    rw [abs_div, abs_of_pos hq, div_lt_iff₀ hq]
    exact h
  have e53 : (2 : ℚ) ^ (53 : ℤ) = ((2 ^ 53 : ℤ) : ℚ) := by norm_num
  rw [e53, abs_lt] at habs
  rw [abs_le]
  constructor
  · exact int_le_roundHalfEven _ _ (by push_cast at habs ⊢; linarith [habs.1])
  · exact roundHalfEven_le_int _ _ (by push_cast at habs ⊢; linarith [habs.2])

theorem roundDouble_pow53 (c : ℤ) (hc : -1074 ≤ c) (n : ℤ) (hn : |n| = 2 ^ 53) :
    roundDouble ((n : ℚ) * 2 ^ c) = (n : ℚ) * 2 ^ c := by
  have key : ∀ m : ℤ, |m| < 2 ^ 53 → (n : ℚ) = m * 2 →
      roundDouble ((n : ℚ) * 2 ^ c) = (n : ℚ) * 2 ^ c := by
    intro m hm hnm
    have e : (n : ℚ) * 2 ^ c = (m : ℚ) * 2 ^ (c + 1) := by
      rw [hnm, zpow_add₀ (by norm_num : (2 : ℚ) ≠ 0)]
      ring
    rw [e]
    exact roundDouble_scaled_int m (c + 1) hm (by omega)
  rcases abs_eq (by norm_num : (0 : ℤ) ≤ 2 ^ 53) |>.mp hn with h | h
  · exact key (2 ^ 52) (by norm_num) (by rw [h]; norm_num)
  · exact key (-2 ^ 52) (by norm_num) (by rw [h]; norm_num)

/-- Rounding twice is rounding once: the result of `roundDouble` is a double. -/
theorem roundDouble_idem (x : ℚ) : roundDouble (roundDouble x) = roundDouble x := by
  have hb := mantissa_abs_le x
  have hc : -1074 ≤ binade x - 52 := by have := binade_ge x; omega
  rcases lt_or_eq_of_le hb with h | h
  · exact roundDouble_scaled_int _ _ h hc
  · exact roundDouble_pow53 _ hc _ h

/-- Integers of magnitude up to `2 ^ 53` are doubles. -/
theorem roundDouble_intCast (n : ℤ) (hn : |n| ≤ 2 ^ 53) : roundDouble (n : ℚ) = n := by
  rcases lt_or_eq_of_le hn with h | h
  · simpa using roundDouble_scaled_int n 0 h (by norm_num)
  · simpa using roundDouble_pow53 0 (by norm_num) n h

theorem roundDouble_nonpos (x : ℚ) (h : x ≤ 0) : roundDouble x ≤ 0 := by
  unfold roundDouble
  have hq := two_zpow_pos (binade x - 52)
  have : roundHalfEven (x / 2 ^ (binade x - 52)) ≤ 0 :=
    roundHalfEven_le_int _ 0 (by push_cast; exact div_nonpos_of_nonpos_of_nonneg h hq.le)
  have : (roundHalfEven (x / 2 ^ (binade x - 52)) : ℚ) ≤ 0 := by exact_mod_cast this
  exact mul_nonpos_of_nonpos_of_nonneg this hq.le

theorem roundDouble_eq_of_bounds (x : ℚ) (e : ℤ) (he : -1022 ≤ e) (h1 : (2 : ℚ) ^ e ≤ |x|)
    (h2 : |x| < (2 : ℚ) ^ (e + 1)) :
    roundDouble x = roundHalfEven (x / 2 ^ (e - 52)) * 2 ^ (e - 52) := by
  unfold roundDouble
  rw [binade_eq_of_bounds x e he h1 h2]

/-- Rounding does not fall below a power of two of the normal range. -/
theorem zpow_le_roundDouble (x : ℚ) (k : ℤ) (hk : -1022 ≤ k) (h : (2 : ℚ) ^ k ≤ x) :
    (2 : ℚ) ^ k ≤ roundDouble x := by
  have hxpos : 0 < x := lt_of_lt_of_le (two_zpow_pos k) h
  have hx : x ≠ 0 := ne_of_gt hxpos
  have habs : |x| = x := abs_of_pos hxpos
  have hlog := le_log_of_zpow_le x hx k (by rw [habs]; exact h)
  have hb : binade x = Int.log 2 |x| := by
    unfold binade
    exact max_eq_left (by omega)
  have hlow := (log_bounds x hx).1
  rw [habs] at hlow
  have hq := two_zpow_pos (binade x - 52)
  have e : (2 : ℚ) ^ (binade x) = 2 ^ (52 : ℤ) * 2 ^ (binade x - 52) := by
    rw [← zpow_add₀ (by norm_num : (2 : ℚ) ≠ 0)]
    congr 1
    omega
  have hn : (2 ^ 52 : ℤ) ≤ roundHalfEven (x / 2 ^ (binade x - 52)) := by
    apply int_le_roundHalfEven
    rw [le_div_iff₀ hq]
    have e52 : (((2 : ℤ) ^ 52 : ℤ) : ℚ) = 2 ^ (52 : ℤ) := by norm_num
    rw [e52, ← e, hb]
    rw [habs]
    exact hlow
  have hnz : (2 : ℚ) ^ (52 : ℤ) ≤ (roundHalfEven (x / 2 ^ (binade x - 52)) : ℚ) := by
    have : (((2 : ℤ) ^ 52 : ℤ) : ℚ) ≤ (roundHalfEven (x / 2 ^ (binade x - 52)) : ℚ) := by
      exact_mod_cast hn
    have e52 : (((2 : ℤ) ^ 52 : ℤ) : ℚ) = 2 ^ (52 : ℤ) := by norm_num
    rwa [e52] at this
  unfold roundDouble
  calc (2 : ℚ) ^ k ≤ 2 ^ (binade x) := zpow_le_zpow_right₀ (by norm_num) (by omega)
    _ = 2 ^ (52 : ℤ) * 2 ^ (binade x - 52) := e
    _ ≤ _ := mul_le_mul_of_nonneg_right hnz hq.le

/-- Rounding does not rise above a power of two. -/
theorem roundDouble_le_zpow (x : ℚ) (k : ℤ) (hk : -1021 ≤ k) (h : x ≤ (2 : ℚ) ^ k) :
    roundDouble x ≤ (2 : ℚ) ^ k := by
  rcases le_or_lt x 0 with h0 | hxpos
  · exact le_trans (roundDouble_nonpos x h0) (two_zpow_pos k).le
  rcases eq_or_lt_of_le h with heq | hlt
  · rw [heq]
    have := roundDouble_scaled_int 1 k (by norm_num) (by omega)
    simpa using this.le
  have hx : x ≠ 0 := ne_of_gt hxpos
  have habs : |x| = x := abs_of_pos hxpos
  have hlog := log_lt_of_lt_zpow x hx k (by rw [habs]; exact hlt)
  have hb : binade x + 1 ≤ k := by
    unfold binade
    rcases max_cases (Int.log 2 |x|) (-1022) with ⟨h, _⟩ | ⟨h, _⟩ <;> rw [h] <;> omega
  have hq := two_zpow_pos (binade x - 52)
  have hm := (abs_le.mp (mantissa_abs_le x)).2
  have hm' : (roundHalfEven (x / 2 ^ (binade x - 52)) : ℚ) ≤ 2 ^ (53 : ℤ) := by
    have : (roundHalfEven (x / 2 ^ (binade x - 52)) : ℚ) ≤ (((2 : ℤ) ^ 53 : ℤ) : ℚ) := by
      exact_mod_cast hm
    have e53 : (((2 : ℤ) ^ 53 : ℤ) : ℚ) = 2 ^ (53 : ℤ) := by norm_num
    rwa [e53] at this
  have e : (2 : ℚ) ^ (53 : ℤ) * 2 ^ (binade x - 52) = 2 ^ (binade x + 1) := by
    rw [← zpow_add₀ (by norm_num : (2 : ℚ) ≠ 0)]
    congr 1
    omega
  unfold roundDouble
  calc _ ≤ (2 : ℚ) ^ (53 : ℤ) * 2 ^ (binade x - 52) := mul_le_mul_of_nonneg_right hm' hq.le
    _ = 2 ^ (binade x + 1) := e
    _ ≤ 2 ^ k := zpow_le_zpow_right₀ (by norm_num) hb

theorem roundHalfEven_eq_of_close (y : ℚ) (N : ℤ) (h1 : (N : ℚ) - 1 / 2 < y)
    (h2 : y < (N : ℚ) + 1 / 2) : roundHalfEven y = N := by
  obtain ⟨a, b⟩ := roundHalfEven_close y
  have hlo : ((N - 1 : ℤ) : ℚ) < (roundHalfEven y : ℚ) := by push_cast; linarith
  have hhi : (roundHalfEven y : ℚ) < ((N + 1 : ℤ) : ℚ) := by push_cast; linarith
  have hlo' : N - 1 < roundHalfEven y := by exact_mod_cast hlo
  have hhi' : roundHalfEven y < N + 1 := by exact_mod_cast hhi
  omega

/-- Evaluation of `roundDouble` from the binade and the nearest significand. -/
theorem roundDouble_eval (x : ℚ) (e N : ℤ) (he : -1022 ≤ e) (h1 : (2 : ℚ) ^ e ≤ |x|)
    (h2 : |x| < (2 : ℚ) ^ (e + 1)) (h3 : (N : ℚ) - 1 / 2 < x / 2 ^ (e - 52))
    (h4 : x / 2 ^ (e - 52) < (N : ℚ) + 1 / 2) : roundDouble x = (N : ℚ) * 2 ^ (e - 52) := by
  rw [roundDouble_eq_of_bounds x e he h1 h2, roundHalfEven_eq_of_close _ N h3 h4]

theorem roundHalfEven_half (f : ℤ) :
    roundHalfEven ((f : ℚ) + 1 / 2) = if f % 2 = 0 then f else f + 1 := by
  have hf : ⌊(f : ℚ) + 1 / 2⌋ = f := by
    rw [Int.floor_eq_iff]
    constructor <;> norm_num
  unfold roundHalfEven
  dsimp only
  rw [hf]
  have e : (f : ℚ) + 1 / 2 - f = 1 / 2 := by ring
  rw [e]
  simp

/-- Evaluation of `roundDouble` at a tie: the even significand wins. -/
theorem roundDouble_eval_tie (x : ℚ) (e f : ℤ) (he : -1022 ≤ e) (h1 : (2 : ℚ) ^ e ≤ |x|)
    (h2 : |x| < (2 : ℚ) ^ (e + 1)) (h3 : x / 2 ^ (e - 52) = (f : ℚ) + 1 / 2) :
    roundDouble x = ((if f % 2 = 0 then f else f + 1 : ℤ) : ℚ) * 2 ^ (e - 52) := by
  rw [roundDouble_eq_of_bounds x e he h1 h2, h3, roundHalfEven_half]

theorem roundDouble_lt_one (x : ℚ) (h : x < 1 - 2 ^ (-54 : ℤ)) : roundDouble x < 1 := by
  rcases le_or_lt x (1 / 2) with hle | hgt
  · have := roundDouble_le_zpow x (-1) (by norm_num) (by norm_num; linarith)
    have e : (2 : ℚ) ^ (-1 : ℤ) < 1 := by norm_num
    linarith
  · have hxpos : 0 < x := by linarith
    have habs : |x| = x := abs_of_pos hxpos
    have hx1 : x < 1 := by
      have : (0 : ℚ) < 2 ^ (-54 : ℤ) := two_zpow_pos _
      linarith
    rw [roundDouble_eq_of_bounds x (-1) (by norm_num) (by rw [habs]; norm_num; linarith)
      (by rw [habs]; norm_num; exact hx1)]
    obtain ⟨_, hup⟩ := roundHalfEven_close (x / 2 ^ (-1 - 52 : ℤ))
    have hq : (2 : ℚ) ^ (-1 - 52 : ℤ) = 1 / 9007199254740992 := by norm_num
    have h54 : (2 : ℚ) ^ (-54 : ℤ) = 1 / 18014398509481984 := by norm_num
    rw [hq] at hup ⊢
    rw [h54] at h
    have hn : (roundHalfEven (x / (1 / 9007199254740992)) : ℚ) < 9007199254740992 := by
      have : x / (1 / 9007199254740992) = x * 9007199254740992 := by field_simp
      rw [this] at hup ⊢
      linarith
    have hnz : roundHalfEven (x / (1 / 9007199254740992)) < 9007199254740992 := by
      exact_mod_cast hn
    have hnle : (roundHalfEven (x / (1 / 9007199254740992)) : ℚ) ≤ 9007199254740991 := by
      have : roundHalfEven (x / (1 / 9007199254740992)) ≤ 9007199254740991 := by omega
      exact_mod_cast this
    linarith

/-- The doubles below 1200 stop one unit in the last place short of it. -/
theorem double_lt_1200 (d : ℚ) (hd : roundDouble d = d) (h : d < 1200) :
    d ≤ 1200 - 2 ^ (-42 : ℤ) := by
  have h42 : (2 : ℚ) ^ (-42 : ℤ) = 1 / 4398046511104 := by norm_num
  rw [h42]
  rcases le_or_lt d 1024 with hle | hgt
  · linarith
  · have hpos : 0 < d := by linarith
    have habs : |d| = d := abs_of_pos hpos
    have hev := roundDouble_eq_of_bounds d 10 (by norm_num) (by rw [habs]; norm_num; linarith)
      (by rw [habs]; norm_num; linarith)
    rw [hd] at hev
    have hq : (2 : ℚ) ^ (10 - 52 : ℤ) = 1 / 4398046511104 := by norm_num
    rw [hq] at hev
    have hn : (roundHalfEven (d / (1 / 4398046511104)) : ℚ) < 5277655813324800 := by
      rw [hev] at h
      linarith
    have hnz : roundHalfEven (d / (1 / 4398046511104)) < 5277655813324800 := by
      exact_mod_cast hn
    have hnle : (roundHalfEven (d / (1 / 4398046511104)) : ℚ) ≤ 5277655813324799 := by
      have : roundHalfEven (d / (1 / 4398046511104)) ≤ 5277655813324799 := by omega
      exact_mod_cast this
    rw [hev]
    linarith

/-- For a double `t`, the double quotient `t / 1200` is below 1 exactly when `t` is
below 1200. -/
theorem roundDouble_div_1200_lt_one (t : ℚ) (ht : roundDouble t = t) :
    roundDouble (t / 1200) < 1 ↔ t < 1200 := by
  constructor
  · intro h
    by_contra hge
    have hge' : (1200 : ℚ) ≤ t := not_lt.mp hge
    have : (2 : ℚ) ^ (0 : ℤ) ≤ roundDouble (t / 1200) :=
      zpow_le_roundDouble _ 0 (by norm_num) (by rw [zpow_zero, le_div_iff₀ (by norm_num)]; linarith)
    rw [zpow_zero] at this
    linarith
  · intro h
    apply roundDouble_lt_one
    have hd := double_lt_1200 t ht h
    have h42 : (2 : ℚ) ^ (-42 : ℤ) = 1 / 4398046511104 := by norm_num
    have h54 : (2 : ℚ) ^ (-54 : ℤ) = 1 / 18014398509481984 := by norm_num
    rw [h42] at hd
    rw [h54, div_lt_iff₀ (by norm_num)]
    linarith

/-! ## Auxiliary facts -/

theorem totalPages_nonneg (s : Carousel) : 0 ≤ totalPages s := by
  unfold totalPages
  exact Int.ceil_nonneg (div_nonneg (Nat.cast_nonneg _) (Nat.cast_nonneg _))

theorem totalPages_of_no_cards (s : Carousel) (h : s.totalCards = 0) : totalPages s = 0 := by
  simp [totalPages, h]

theorem totalPages_pos (s : Carousel) (hc : 0 < s.totalCards) (hp : 0 < s.cardsPerView) :
    1 ≤ totalPages s := by
  unfold totalPages
  have hc' : (0 : ℚ) < (s.totalCards : ℚ) := by exact_mod_cast hc
  have hp' : (0 : ℚ) < (s.cardsPerView : ℚ) := by exact_mod_cast hp
  have : 0 < ⌈(s.totalCards : ℚ) / (s.cardsPerView : ℚ)⌉ := Int.ceil_pos.mpr (div_pos hc' hp')
  omega

/-- The ceiling of the exact quotient is the usual integer formula. -/
theorem totalPages_eq_natDiv (s : Carousel) (hp : 0 < s.cardsPerView) :
    totalPages s = ((s.totalCards + s.cardsPerView - 1) / s.cardsPerView : Nat) := by
  unfold totalPages
  have hp' : (0 : ℚ) < (s.cardsPerView : ℚ) := by exact_mod_cast hp
  rw [Int.ceil_eq_iff]
  have hdm := Nat.div_add_mod (s.totalCards + s.cardsPerView - 1) s.cardsPerView
  have hlt := Nat.mod_lt (s.totalCards + s.cardsPerView - 1) hp
  set q := (s.totalCards + s.cardsPerView - 1) / s.cardsPerView with hq
  set m := (s.totalCards + s.cardsPerView - 1) % s.cardsPerView with hm
  have e : ((s.cardsPerView : ℚ)) * q + m = s.totalCards + s.cardsPerView - 1 := by
    have : s.cardsPerView * q + m + 1 = s.totalCards + s.cardsPerView := by omega
    have h2 : ((s.cardsPerView * q + m + 1 : ℕ) : ℚ) = ((s.totalCards + s.cardsPerView : ℕ) : ℚ) := by
      rw [this]
    push_cast at h2
    linarith
  have hm' : (m : ℚ) + 1 ≤ s.cardsPerView := by exact_mod_cast hlt
  have hm0 : (0 : ℚ) ≤ m := Nat.cast_nonneg _
  constructor
  · rw [lt_div_iff₀ hp']
    push_cast
    nlinarith
  · rw [div_le_iff₀ hp']
    push_cast
    nlinarith

/-! ## What the layout functions leave alone -/

theorem updateCarousel_state (s : Carousel) :
    (updateCarousel s).state = s ∨
      ∃ l, (updateCarousel s).state = { s with layout := l } := by
  unfold updateCarousel
  split_ifs <;> simp [Run.ok, Run.raise]

theorem updateDots_state (s : Carousel) :
    ∃ a, (updateDots s).state = { s with activeDot := a } := by
  unfold updateDots
  by_cases hd : (!s.dotsContainer) = true
  · exact ⟨s.activeDot, by rw [if_pos hd]; rfl⟩
  · exact ⟨_, by rw [if_neg hd]; rfl⟩

theorem updateCarousel_keeps (s : Carousel) :
    (updateCarousel s).state.isViewAll = s.isViewAll ∧
    (updateCarousel s).state.currentIndex = s.currentIndex := by
  rcases updateCarousel_state s with h | ⟨l, h⟩ <;> rw [h] <;> exact ⟨rfl, rfl⟩

/-- Running `updateCarousel(); updateDots();` changes only what is drawn. -/
theorem redraw_state (s : Carousel) :
    ∃ l a, ((updateCarousel s).andThen updateDots).state = { s with layout := l, activeDot := a } := by
  unfold Run.andThen
  split_ifs
  · rcases updateCarousel_state s with h | ⟨l, h⟩
    · exact ⟨s.layout, s.activeDot, by rw [h]⟩
    · exact ⟨l, s.activeDot, by rw [h]⟩
  · obtain ⟨a, ha⟩ := updateDots_state (updateCarousel s).state
    rcases updateCarousel_state s with h | ⟨l, h⟩
    · exact ⟨s.layout, a, by rw [ha, h]⟩
    · exact ⟨l, a, by rw [ha, h]⟩

theorem goToSlide_state (i : Int) (s : Carousel) :
    ∃ l a, (goToSlide i s).state =
      { s with currentIndex := max 0 (min i (maxIndex s)), layout := l, activeDot := a } := by
  unfold goToSlide
  exact redraw_state _

theorem nextSlide_state (s : Carousel) :
    ∃ l a, (nextSlide s).state =
      { s with currentIndex := if s.currentIndex < maxIndex s then s.currentIndex + 1 else 0
               layout := l, activeDot := a } := by
  unfold nextSlide
  split_ifs with hlt
  · obtain ⟨l, a, h⟩ := redraw_state { s with currentIndex := s.currentIndex + 1 }
    exact ⟨l, a, by simp only [hlt, if_true, h]⟩
  · obtain ⟨l, a, h⟩ := redraw_state { s with currentIndex := 0 }
    exact ⟨l, a, by simp only [hlt, if_false, h]⟩

theorem prevSlide_state (s : Carousel) :
    ∃ l a, (prevSlide s).state =
      { s with currentIndex := if s.currentIndex > 0 then s.currentIndex - 1 else maxIndex s
               layout := l, activeDot := a } := by
  unfold prevSlide
  split_ifs with hlt
  · obtain ⟨l, a, h⟩ := redraw_state { s with currentIndex := s.currentIndex - 1 }
    exact ⟨l, a, by simp only [hlt, if_true, h]⟩
  · obtain ⟨l, a, h⟩ := redraw_state { s with currentIndex := maxIndex s }
    exact ⟨l, a, by simp only [hlt, if_false, h]⟩

theorem goToSlide_currentIndex (i : Int) (s : Carousel) :
    (goToSlide i s).state.currentIndex = max 0 (min i (maxIndex s)) := by
  obtain ⟨l, a, h⟩ := goToSlide_state i s
  rw [h]

theorem nextSlide_currentIndex (s : Carousel) :
    (nextSlide s).state.currentIndex =
      if s.currentIndex < maxIndex s then s.currentIndex + 1 else 0 := by
  obtain ⟨l, a, h⟩ := nextSlide_state s
  rw [h]

theorem prevSlide_currentIndex (s : Carousel) :
    (prevSlide s).state.currentIndex =
      if s.currentIndex > 0 then s.currentIndex - 1 else maxIndex s := by
  obtain ⟨l, a, h⟩ := prevSlide_state s
  rw [h]

theorem totalPages_congr {s t : Carousel} (hc : t.totalCards = s.totalCards)
    (hp : t.cardsPerView = s.cardsPerView) : totalPages t = totalPages s := by
  unfold totalPages
  rw [hc, hp]

theorem nextSlide_totalPages (s : Carousel) : totalPages (nextSlide s).state = totalPages s := by
  obtain ⟨l, a, h⟩ := nextSlide_state s
  rw [h]
  exact totalPages_congr rfl rfl

theorem nextSlideTimes_totalPages (n : Nat) (s : Carousel) :
    totalPages (nextSlideTimes n s) = totalPages s := by
  induction n with
  | zero => rfl
  | succ k ih =>
    show totalPages (nextSlide (nextSlideTimes k s)).state = totalPages s
    rw [nextSlide_totalPages, ih]

/-- While the last page is not passed, `k` runs of `nextSlide` advance by `k`. -/
theorem nextSlideTimes_climb (k : Nat) (s : Carousel) (h : s.currentIndex + k ≤ maxIndex s) :
    (nextSlideTimes k s).currentIndex = s.currentIndex + k := by
  induction k with
  | zero => simp [nextSlideTimes]
  | succ k ih =>
    have hk : s.currentIndex + (k : Int) ≤ maxIndex s := by push_cast at h; omega
    have hm : maxIndex (nextSlideTimes k s) = maxIndex s := by
      unfold maxIndex
      rw [nextSlideTimes_totalPages]
    show (nextSlide (nextSlideTimes k s)).state.currentIndex = s.currentIndex + ((k + 1 : Nat) : Int)
    rw [nextSlide_currentIndex, hm, ih hk]
    push_cast at h ⊢
    rw [if_pos (by omega)]
    omega

theorem nextSlide_isDragging (s : Carousel) :
    (nextSlide s).state.isDragging = s.isDragging := by
  obtain ⟨l, a, h⟩ := nextSlide_state s
  rw [h]

theorem prevSlide_isDragging (s : Carousel) :
    (prevSlide s).state.isDragging = s.isDragging := by
  obtain ⟨l, a, h⟩ := prevSlide_state s
  rw [h]

/-- The loop of the scroll fallback keeps the id of the last qualifying section, or
the id it started with. -/
theorem foldl_last_qualifying (pos : ℚ) (l : List Section) (acc : String) :
    l.foldl (fun currentId sec => if pos ≥ (sec.offsetTop : ℚ) then sec.id else currentId)
        acc =
      match (l.filter (fun sec => decide ((sec.offsetTop : ℚ) ≤ pos))).getLast? with
      | some sec => sec.id
      | none => acc := by
  induction l generalizing acc with
  | nil => rfl
  | cons a t ih =>
    rw [List.foldl_cons, ih]
    by_cases ha : (a.offsetTop : ℚ) ≤ pos
    · have hge : pos ≥ (a.offsetTop : ℚ) := ha
      rw [if_pos hge, List.filter_cons_of_pos (by simpa using ha), List.getLast?_cons]
      cases (t.filter (fun sec => decide ((sec.offsetTop : ℚ) ≤ pos))).getLast? <;> rfl
    · have hge : ¬ pos ≥ (a.offsetTop : ℚ) := ha
      rw [if_neg hge, List.filter_cons_of_neg (by simpa using ha)]

theorem totalPages_seven_by_three (s : Carousel) (hc : s.totalCards = 7)
    (hp : s.cardsPerView = 3) : totalPages s = 3 := by
  unfold totalPages
  rw [hc, hp, Int.ceil_eq_iff]
  norm_num

/-- Testing `|d| > 50` and then the sign of `d` is testing `d > 50` and `d < -50`. -/
theorem swipe_cases (d : ℚ) (a b c : Run) :
    (if |d| > 50 then (if d > 0 then a else b) else c) =
      (if d > 50 then a else if d < -50 then b else c) := by
  by_cases h1 : d > 50
  · have habs : |d| > 50 := lt_of_lt_of_le h1 (le_abs_self _)
    have hpos : d > 0 := by linarith
    rw [if_pos habs, if_pos hpos, if_pos h1]
  · rw [if_neg h1]
    by_cases h2 : d < -50
    · have habs : |d| > 50 := by
        have := neg_le_abs d
        linarith
      have hneg : ¬ d > 0 := by linarith
      rw [if_pos habs, if_neg hneg, if_pos h2]
    · have habs : ¬ |d| > 50 := by
        rw [gt_iff_lt, lt_abs]
        push_neg
        constructor <;> linarith
      rw [if_neg habs, if_neg h2]

/-- The listener of `touchend` by the sign and size of the double difference
`startX - x`. -/
theorem touchend_eq (u : Carousel) (y : ℚ) : touchend y u =
    (if u.isDragging = false then Run.ok u
     else if dsub u.startX (roundDouble y) > 50 then nextSlide { u with isDragging := false }
     else if dsub u.startX (roundDouble y) < -50 then
       prevSlide { u with isDragging := false }
     else Run.ok { u with isDragging := false }) := by
  unfold touchend
  dsimp only
  by_cases hd : u.isDragging = false
  · simp [hd]
  · have hn : ¬ (!u.isDragging) = true := by simpa using hd
    rw [if_neg hn, if_neg hd]
    exact swipe_cases _ _ _ _

/-! ## Every listener, seen from the navigation state -/

theorem createDots_state (s : Carousel) :
    (createDots s).threw = false ∧
      ∃ d a, (createDots s).state = { s with dots := d, activeDot := a } := by
  unfold createDots
  by_cases hd : (!s.dotsContainer) = true
  · rw [if_pos hd]; exact ⟨rfl, s.dots, s.activeDot, rfl⟩
  · rw [if_neg hd]; exact ⟨rfl, _, _, rfl⟩

theorem onResize_state (s : Carousel) :
    ∃ d a l, (onResize s).state = { s with dots := d, activeDot := a, layout := l } := by
  unfold onResize Run.andThen
  obtain ⟨hok, d, a, h⟩ := createDots_state s
  rw [if_neg (by simp [hok])]
  rcases updateCarousel_state (createDots s).state with h2 | ⟨l, h2⟩
  · exact ⟨d, a, s.layout, by rw [h2, h]⟩
  · exact ⟨d, a, l, by rw [h2, h]⟩

theorem toggleViewAll_state (s : Carousel) :
    ∃ l v, (toggleViewAll s).state =
      { s with isViewAll := !s.isViewAll, layout := l, viewAllText := v } := by
  unfold toggleViewAll
  dsimp only
  by_cases hv : (!s.viewAllBtn) = true
  · rw [if_pos hv]; exact ⟨s.layout, s.viewAllText, rfl⟩
  · rw [if_neg hv]
    rcases updateCarousel_state
      { s with isViewAll := !s.isViewAll
               viewAllText := some (if (!s.isViewAll) = true then "Show Less" else "View All") }
      with h | ⟨l, h⟩
    · exact ⟨s.layout, _, by rw [h]⟩
    · exact ⟨l, _, by rw [h]⟩

theorem navStep_refl (s : Carousel) : NavStep s s :=
  ⟨rfl, rfl, rfl, rfl, Or.inl rfl⟩

theorem nextSlide_navStep (s : Carousel) : NavStep s (nextSlide s).state := by
  obtain ⟨l, a, h⟩ := nextSlide_state s
  rw [h]
  exact ⟨rfl, rfl, rfl, rfl, Or.inr (Or.inr (Or.inl rfl))⟩

theorem prevSlide_navStep (s : Carousel) : NavStep s (prevSlide s).state := by
  obtain ⟨l, a, h⟩ := prevSlide_state s
  rw [h]
  exact ⟨rfl, rfl, rfl, rfl, Or.inr (Or.inr (Or.inr rfl))⟩

theorem goToSlide_navStep (i : Int) (s : Carousel) : NavStep s (goToSlide i s).state := by
  obtain ⟨l, a, h⟩ := goToSlide_state i s
  rw [h]
  exact ⟨rfl, rfl, rfl, rfl, Or.inr (Or.inl ⟨i, rfl⟩)⟩

theorem touchend_navStep (x : ℚ) (s : Carousel) : NavStep s (touchend x s).state := by
  rw [touchend_eq]
  split_ifs
  · exact navStep_refl s
  · exact nextSlide_navStep { s with isDragging := false }
  · exact prevSlide_navStep { s with isDragging := false }
  · exact navStep_refl s

/-- No listener changes the constants, and each moves the index in one of the four
ways of `NavStep`. -/
theorem fire_navStep (e : Event) (s : Carousel) : NavStep s (fire e s).state := by
  cases e with
  | prevClick => exact prevSlide_navStep s
  | nextClick => exact nextSlide_navStep s
  | dotClick i =>
    simp only [fire]
    split_ifs
    · exact goToSlide_navStep _ s
    · exact navStep_refl s
  | viewAllClick =>
    simp only [fire]
    split_ifs
    · obtain ⟨l, v, h⟩ := toggleViewAll_state s
      rw [h]
      exact navStep_refl s
    · exact navStep_refl s
  | arrowLeft =>
    simp only [fire]
    split_ifs
    · exact prevSlide_navStep s
    · exact navStep_refl s
  | arrowRight =>
    simp only [fire]
    split_ifs
    · exact nextSlide_navStep s
    · exact navStep_refl s
  | touchstart x =>
    simp only [fire]
    split_ifs
    · exact navStep_refl s
    · exact navStep_refl s
  | touchmove =>
    simp only [fire, touchmove]
    split_ifs <;> exact navStep_refl s
  | touchend x =>
    simp only [fire]
    split_ifs
    · exact touchend_navStep x s
    · exact navStep_refl s
  | resize w cw =>
    simp only [fire]
    split_ifs
    · obtain ⟨d, a, l, h⟩ := onResize_state { s with innerWidth := w, cardOffsetWidth := cw }
      rw [h]
      exact navStep_refl s
    · exact navStep_refl s

theorem onResize_fields (s : Carousel) :
    (onResize s).state.totalCards = s.totalCards ∧
    (onResize s).state.cardsPerView = s.cardsPerView ∧
    (onResize s).state.dotsContainer = s.dotsContainer ∧
    (onResize s).state.viewAllBtn = s.viewAllBtn ∧
    (onResize s).state.currentIndex = s.currentIndex ∧
    (onResize s).state.isViewAll = s.isViewAll := by
  obtain ⟨d, a, l, h⟩ := onResize_state s
  rw [h]
  exact ⟨rfl, rfl, rfl, rfl, rfl, rfl⟩

/-- The state `setupCarousel` leaves, when it gets past its guard. -/
theorem setupCarousel_state (p : Page) (r : Run) (h : setupCarousel p = some r) :
    r.state.totalCards = p.cards ∧ r.state.cardsPerView = cardsPerViewAt p.innerWidth ∧
    r.state.dotsContainer = p.dotsContainer ∧ r.state.viewAllBtn = p.viewAllBtn ∧
    r.state.currentIndex = 0 ∧ r.state.isViewAll = false := by
  unfold setupCarousel at h
  dsimp only at h
  split_ifs at h with hg hv ht
  · cases h
    exact ⟨rfl, rfl, rfl, rfl, rfl, rfl⟩
  all_goals
    cases h
    exact onResize_fields
      { dotsContainer := p.dotsContainer, viewAllBtn := p.viewAllBtn, totalCards := p.cards
        cardsPerView := cardsPerViewAt p.innerWidth, currentIndex := 0, isViewAll := false
        startX := 0, isDragging := false, innerWidth := p.innerWidth
        cardOffsetWidth := p.cardOffsetWidth, layout := Layout.untouched, dots := 0
        activeDot := none, viewAllText := none, keysAndTouch := true, resizeListener := false }

/-! ## Reachable states -/

theorem cardsPerViewAt_cases (w : Int) : cardsPerViewAt w = 1 ∨ cardsPerViewAt w = 3 := by
  unfold cardsPerViewAt
  split_ifs
  · exact Or.inl rfl
  · exact Or.inr rfl

theorem cardsPerViewAt_pos (w : Int) : 0 < cardsPerViewAt w := by
  rcases cardsPerViewAt_cases w with h | h <;> rw [h] <;> decide

/-- Constants and captured elements of a reachable closure are those of the page. -/
theorem reachable_consts (p : Page) (s : Carousel) (h : Reachable p s) :
    s.totalCards = p.cards ∧ s.cardsPerView = cardsPerViewAt p.innerWidth ∧
    s.dotsContainer = p.dotsContainer ∧ s.viewAllBtn = p.viewAllBtn := by
  induction h with
  | setup hr =>
    obtain ⟨h1, h2, h3, h4, _, _⟩ := setupCarousel_state p _ hr
    exact ⟨h1, h2, h3, h4⟩
  | fire e _ ih =>
    obtain ⟨h1, h2, h3, h4, _⟩ := fire_navStep e _
    exact ⟨h1.trans ih.1, h2.trans ih.2.1, h3.trans ih.2.2.1, h4.trans ih.2.2.2⟩

/-- With at least one card the index of a reachable state is a page index, in
either view mode. -/
theorem reachable_in_range (p : Page) (s : Carousel) (h : Reachable p s) (hc : 0 < p.cards) :
    0 ≤ s.currentIndex ∧ s.currentIndex ≤ totalPages s - 1 := by
  induction h with
  | setup hr =>
    obtain ⟨h1, h2, _, _, h5, _⟩ := setupCarousel_state p _ hr
    have := totalPages_pos _ (by rw [h1]; exact hc) (by rw [h2]; exact cardsPerViewAt_pos _)
    rw [h5]
    omega
  | @fire s e hs ih =>
    obtain ⟨hc1, hc2, _, _⟩ := reachable_consts p s hs
    have hpos := totalPages_pos s (by rw [hc1]; exact hc) (by rw [hc2]; exact cardsPerViewAt_pos _)
    obtain ⟨h1, h2, _, _, hidx⟩ := fire_navStep e s
    rw [totalPages_congr h1 h2]
    unfold maxIndex at hidx
    rcases hidx with h | ⟨i, h⟩ | h | h
    · rw [h]; exact ih
    · rw [h]; omega
    · rw [h]; split_ifs <;> omega
    · rw [h]; split_ifs <;> omega

/-- Without a card the index of a reachable state is 0 or -1. -/
theorem reachable_no_cards (p : Page) (s : Carousel) (h : Reachable p s) (hc : p.cards = 0) :
    s.currentIndex = 0 ∨ s.currentIndex = -1 := by
  induction h with
  | setup hr =>
    obtain ⟨_, _, _, _, h5, _⟩ := setupCarousel_state p _ hr
    exact Or.inl h5
  | @fire s e hs ih =>
    obtain ⟨hc1, _, _, _⟩ := reachable_consts p s hs
    have hz := totalPages_of_no_cards s (by rw [hc1]; exact hc)
    obtain ⟨_, _, _, _, hidx⟩ := fire_navStep e s
    unfold maxIndex at hidx
    rw [hz] at hidx
    rcases hidx with h | ⟨i, h⟩ | h | h
    · rw [h]; exact ih
    · rw [h]; omega
    · rw [h]; split_ifs <;> omega
    · rw [h]; split_ifs <;> omega

/-! ## When nothing raises -/

/-- The guard of line 317: without the track or one of the arrows nothing is set up. -/
theorem setupCarousel_guard (p : Page)
    (h : p.track = false ∨ p.prevBtn = false ∨ p.nextBtn = false) :
    setupCarousel p = none := by
  unfold setupCarousel
  rcases h with h | h | h <;> simp [h]

theorem updateCarousel_completes (s : Carousel) (hd : s.dotsContainer = true)
    (hc : 0 < s.totalCards) : (updateCarousel s).threw = false := by
  unfold updateCarousel
  have hne : s.totalCards ≠ 0 := Nat.pos_iff_ne_zero.mp hc
  split_ifs <;> simp_all [Run.ok, Run.raise]

theorem redraw_completes (s : Carousel) (hd : s.dotsContainer = true)
    (hc : 0 < s.totalCards) : ((updateCarousel s).andThen updateDots).threw = false := by
  unfold Run.andThen
  rw [if_neg (by simp [updateCarousel_completes s hd hc])]
  unfold updateDots
  have hd2 : (updateCarousel s).state.dotsContainer = true := by
    rcases updateCarousel_state s with h | ⟨l, h⟩ <;> rw [h] <;> exact hd
  simp [hd2, Run.ok]

theorem nextSlide_completes (s : Carousel) (hd : s.dotsContainer = true)
    (hc : 0 < s.totalCards) : (nextSlide s).threw = false := by
  unfold nextSlide
  dsimp only
  split_ifs <;> exact redraw_completes _ hd hc

theorem prevSlide_completes (s : Carousel) (hd : s.dotsContainer = true)
    (hc : 0 < s.totalCards) : (prevSlide s).threw = false := by
  unfold prevSlide
  dsimp only
  split_ifs <;> exact redraw_completes _ hd hc

theorem goToSlide_completes (i : Int) (s : Carousel) (hd : s.dotsContainer = true)
    (hc : 0 < s.totalCards) : (goToSlide i s).threw = false := by
  unfold goToSlide
  exact redraw_completes _ hd hc

theorem toggleViewAll_completes (s : Carousel) (hd : s.dotsContainer = true)
    (hv : s.viewAllBtn = true) (hc : 0 < s.totalCards) : (toggleViewAll s).threw = false := by
  unfold toggleViewAll
  dsimp only
  rw [if_neg (by simp [hv])]
  exact updateCarousel_completes _ hd hc

theorem onResize_completes (s : Carousel) (hd : s.dotsContainer = true)
    (hc : 0 < s.totalCards) : (onResize s).threw = false := by
  unfold onResize Run.andThen
  obtain ⟨hok, d, a, h⟩ := createDots_state s
  rw [if_neg (by simp [hok])]
  apply updateCarousel_completes
  · rw [h]; exact hd
  · rw [h]; exact hc

theorem touchend_completes (x : ℚ) (s : Carousel) (hd : s.dotsContainer = true)
    (hc : 0 < s.totalCards) : (touchend x s).threw = false := by
  rw [touchend_eq]
  split_ifs
  · rfl
  · exact nextSlide_completes _ hd hc
  · exact prevSlide_completes _ hd hc
  · rfl

/-- With the dots container, the view-all button and at least one card, no listener
raises. -/
theorem fire_completes (e : Event) (s : Carousel) (hd : s.dotsContainer = true)
    (hv : s.viewAllBtn = true) (hc : 0 < s.totalCards) : (fire e s).threw = false := by
  cases e with
  | prevClick => exact prevSlide_completes s hd hc
  | nextClick => exact nextSlide_completes s hd hc
  | dotClick i =>
    simp only [fire]
    split_ifs
    · exact goToSlide_completes _ s hd hc
    · rfl
  | viewAllClick =>
    simp only [fire]
    split_ifs
    · exact toggleViewAll_completes s hd hv hc
  | arrowLeft =>
    simp only [fire]
    split_ifs
    · exact prevSlide_completes s hd hc
    · rfl
  | arrowRight =>
    simp only [fire]
    split_ifs
    · exact nextSlide_completes s hd hc
    · rfl
  | touchstart x =>
    simp only [fire]
    split_ifs <;> rfl
  | touchmove =>
    simp only [fire, touchmove]
    split_ifs <;> rfl
  | touchend x =>
    simp only [fire]
    split_ifs
    · exact touchend_completes x s hd hc
    · rfl
  | resize w cw =>
    simp only [fire]
    split_ifs
    · exact onResize_completes _ hd hc
    · rfl

/-- On a page with all five elements and at least one card `setupCarousel` runs to
its end without raising. -/
theorem setupCarousel_completes (p : Page) (ht : p.track = true) (hpb : p.prevBtn = true)
    (hnb : p.nextBtn = true) (hd : p.dotsContainer = true) (hv : p.viewAllBtn = true)
    (hc : 0 < p.cards) : ∃ r, setupCarousel p = some r ∧ r.threw = false := by
  have hrun := onResize_completes
      { dotsContainer := p.dotsContainer, viewAllBtn := p.viewAllBtn, totalCards := p.cards
        cardsPerView := cardsPerViewAt p.innerWidth, currentIndex := 0, isViewAll := false
        startX := 0, isDragging := false, innerWidth := p.innerWidth
        cardOffsetWidth := p.cardOffsetWidth, layout := Layout.untouched, dots := 0
        activeDot := none, viewAllText := none, keysAndTouch := true, resizeListener := false }
      hd hc
  unfold onResize at hrun
  unfold setupCarousel
  dsimp only
  rw [if_neg (by simp [ht, hpb, hnb]), if_neg (by simp [hv]), if_neg (by simp [hrun])]
  exact ⟨_, rfl, rfl⟩

/-- On such a page no reachable state lets a listener raise. -/
theorem reachable_never_raises (p : Page) (s : Carousel) (h : Reachable p s)
    (hd : p.dotsContainer = true) (hv : p.viewAllBtn = true) (hc : 0 < p.cards)
    (e : Event) : (fire e s).threw = false := by
  obtain ⟨h1, _, h3, h4⟩ := reachable_consts p s h
  exact fire_completes e s (h3.trans hd) (h4.trans hv) (by rw [h1]; exact hc)

/-- With the track and both arrows present `setupCarousel` gets past its guard. -/
theorem setupCarousel_past_guard (p : Page) (ht : p.track = true) (hpb : p.prevBtn = true)
    (hnb : p.nextBtn = true) : ∃ r, setupCarousel p = some r := by
  unfold setupCarousel
  dsimp only
  rw [if_neg (by simp [ht, hpb, hnb])]
  split_ifs <;> exact ⟨_, rfl⟩

/-- With at least one card, `prevSlide` wraps from index 0 to the clamp bound of the
specification. -/
theorem prevSlide_with_cards (s : Carousel) (hc : 0 < s.totalCards) (hp : 0 < s.cardsPerView) :
    (prevSlide s).state.currentIndex =
      if s.currentIndex > 0 then s.currentIndex - 1 else specMaxIndex s := by
  have := totalPages_pos s hc hp
  rw [prevSlide_currentIndex]
  unfold specMaxIndex maxIndex
  split_ifs <;> omega

/-! ## Doubles at work in the listeners -/

theorem roundDouble_ofInt_small (n : ℤ) (hn : |n| ≤ 2 ^ 53) (x : ℚ) (hx : x = (n : ℚ)) :
    roundDouble x = x := by
  rw [hx]
  exact roundDouble_intCast n hn

/-- A session: `touchstart` at `x0`, then `touchend` at `x`. -/
theorem touch_session (s : Carousel) (x0 x : ℚ) :
    touchend x (touchstart x0 s).state =
      (if dsub (roundDouble x0) (roundDouble x) > 50 then
        nextSlide { s with startX := roundDouble x0, isDragging := false }
       else if dsub (roundDouble x0) (roundDouble x) < -50 then
        prevSlide { s with startX := roundDouble x0, isDragging := false }
       else Run.ok { s with startX := roundDouble x0, isDragging := false }) := by
  rw [touchend_eq]
  simp only [touchstart, Run.ok]
  rw [if_neg (by simp)]

/-- The double difference of the doubles `50.1` and `0.1` is 50 although their exact
difference is larger: the session runs nothing. -/
theorem touch_session_rounds_to_threshold (s : Carousel) :
    roundDouble (501 / 10) - roundDouble (1 / 10) > 50 ∧
    dsub (roundDouble (501 / 10)) (roundDouble (1 / 10)) = 50 ∧
    touchend (1 / 10) (touchstart (501 / 10) s).state =
      Run.ok { s with startX := roundDouble (501 / 10), isDragging := false } := by
  have h1 : roundDouble (501 / 10) = 7050948166601933 / 140737488355328 := by
    rw [roundDouble_eval (501 / 10) 5 7050948166601933 (by norm_num)
      (by norm_num [abs_of_pos]) (by norm_num [abs_of_pos]) (by norm_num) (by norm_num)]
    norm_num
  have h2 : roundDouble (1 / 10) = 3602879701896397 / 36028797018963968 := by
    rw [roundDouble_eval (1 / 10) (-4) 7205759403792794 (by norm_num)
      (by norm_num [abs_of_pos]) (by norm_num [abs_of_pos]) (by norm_num) (by norm_num)]
    norm_num
  have h3 : dsub (roundDouble (501 / 10)) (roundDouble (1 / 10)) = 50 := by
    unfold dsub
    rw [h1, h2, roundDouble_eval _ 5 7036874417766400 (by norm_num)
      (by norm_num [abs_of_pos]) (by norm_num [abs_of_pos]) (by norm_num) (by norm_num)]
    norm_num
  refine ⟨by rw [h1, h2]; norm_num, h3, ?_⟩
  rw [touch_session, h3]
  norm_num

/-- The double sum can reach a section the exact sum stays short of: the scroll
position `47.99999999999999` with a header of 80 pixels selects the section at 148. -/
theorem scrollFallback_rounds_up :
    roundDouble (4799999999999999 / 100000000000000) + 80 + 20 < 148 ∧
    scrollPos 80 (4799999999999999 / 100000000000000) = 148 ∧
    scrollFallback [⟨"home", 0⟩, ⟨"about", 148⟩] 80 (4799999999999999 / 100000000000000) =
      some "about" := by
  have h1 : roundDouble (4799999999999999 / 100000000000000) =
      6755399441055743 / 140737488355328 := by
    rw [roundDouble_eval _ 5 6755399441055743 (by norm_num)
      (by norm_num [abs_of_pos]) (by norm_num [abs_of_pos]) (by norm_num) (by norm_num)]
    norm_num
  have h2 : dadd (6755399441055743 / 140737488355328) ((80 : ℤ) : ℚ) = 128 := by
    unfold dadd
    rw [roundDouble_eval_tie _ 6 9007199254740991 (by norm_num)
      (by norm_num [abs_of_pos]) (by norm_num [abs_of_pos]) (by norm_num)]
    norm_num
  have h3 : dadd 128 20 = 148 := by
    unfold dadd
    norm_num
    exact roundDouble_ofInt_small 148 (by norm_num) _ (by norm_num)
  have hpos : scrollPos 80 (4799999999999999 / 100000000000000) = 148 := by
    unfold scrollPos
    rw [h1, h2, h3]
  refine ⟨by rw [h1]; norm_num, hpos, ?_⟩
  unfold scrollFallback
  dsimp only
  rw [hpos]
  norm_num [List.foldl]

theorem step_shape (target : Int) (startTime now : ℚ)
    (htarget : roundDouble (target : ℚ) = target) :
    step target startTime now =
      (if dsub (roundDouble now) (roundDouble startTime) < 1200 then
        { textContent :=
            ⌊dmul (ddiv (dsub (roundDouble now) (roundDouble startTime)) 1200) target⌋
          again := true }
       else { textContent := target, again := false }) := by
  unfold step durationMs
  dsimp only
  rw [htarget]
  have ht : roundDouble (dsub (roundDouble now) (roundDouble startTime)) =
      dsub (roundDouble now) (roundDouble startTime) := roundDouble_idem _
  have key := roundDouble_div_1200_lt_one _ ht
  by_cases h : dsub (roundDouble now) (roundDouble startTime) < 1200
  · have hlt : ddiv (dsub (roundDouble now) (roundDouble startTime)) 1200 < 1 := key.mpr h
    rw [if_pos h, min_eq_left hlt.le]
    simp [hlt]
  · have hge : ¬ ddiv (dsub (roundDouble now) (roundDouble startTime)) 1200 < 1 :=
      fun hlt => h (key.mp hlt)
    rw [if_neg h, min_eq_right (not_lt.mp hge)]
    unfold dmul
    rw [one_mul, htarget]
    simp

theorem roundDouble_150 : roundDouble ((150 : ℤ) : ℚ) = ((150 : ℤ) : ℚ) :=
  roundDouble_intCast 150 (by norm_num)

/-! ## The claims -/

/-- C1: after `goToSlide(i)` the index lies in `[0, maxIndex]` with
`maxIndex = max(0, ceil(totalItems / pageSize) - 1)` and is `i` clamped to that
range, for every card count, every page size and every integer `i`; with 7 cards
and page size 3 the bound is 2 and `goToSlide(5)` leaves the index at 2. -/
theorem goToSlide_clamps (s : Carousel) (i : Int) :
    specMaxIndex s = max 0 (⌈(s.totalCards : ℚ) / (s.cardsPerView : ℚ)⌉ - 1) ∧
    0 ≤ (goToSlide i s).state.currentIndex ∧
    (goToSlide i s).state.currentIndex ≤ specMaxIndex s ∧
    (goToSlide i s).state.currentIndex = max 0 (min i (specMaxIndex s)) ∧
    specMaxIndex { s with totalCards := 7, cardsPerView := 3 } = 2 ∧
    (goToSlide 5 { s with totalCards := 7, cardsPerView := 3 }).state.currentIndex = 2 := by
  have h7 : totalPages { s with totalCards := 7, cardsPerView := 3 } = 3 := by
    unfold totalPages
    rw [Int.ceil_eq_iff]
    norm_num
  have hnn := totalPages_nonneg s
  refine ⟨rfl, ?_, ?_, ?_, ?_, ?_⟩
  · rw [goToSlide_currentIndex]; exact le_max_left _ _
  · rw [goToSlide_currentIndex]
    unfold specMaxIndex maxIndex
    omega
  · rw [goToSlide_currentIndex]
    unfold specMaxIndex maxIndex
    omega
  · unfold specMaxIndex
    rw [h7]; rfl
  · rw [goToSlide_currentIndex]
    unfold maxIndex
    rw [h7]; rfl

/-- C3: from index 0, `ceil(totalItems / pageSize)` runs of `nextSlide` end at index
0 again; one run adds one to the index when it is below `maxIndex` and otherwise
sets it to 0 (with `maxIndex` read as the local of the code, `ceil - 1`, or as the
clamp bound `max(0, ceil - 1)`: both give the same result). -/
theorem nextSlide_full_cycle (s : Carousel) :
    (nextSlideTimes (totalPages s).toNat { s with currentIndex := 0 }).currentIndex = 0 ∧
    (nextSlide s).state.currentIndex =
      (if s.currentIndex < maxIndex s then s.currentIndex + 1 else 0) ∧
    (nextSlide s).state.currentIndex =
      (if s.currentIndex < specMaxIndex s then s.currentIndex + 1 else 0) := by
  have hnn := totalPages_nonneg s
  refine ⟨?_, nextSlide_currentIndex s, ?_⟩
  · have hs0 : totalPages { s with currentIndex := 0 } = totalPages s := totalPages_congr rfl rfl
    rcases Nat.eq_zero_or_pos (totalPages s).toNat with hz | hpos
    · rw [hz]; rfl
    · obtain ⟨n, hn⟩ : ∃ n, (totalPages s).toNat = n + 1 := ⟨(totalPages s).toNat - 1, by omega⟩
      have hmax : maxIndex { s with currentIndex := 0 } = (n : Int) := by
        unfold maxIndex
        rw [hs0]
        omega
      rw [hn]
      show (nextSlide (nextSlideTimes n { s with currentIndex := 0 })).state.currentIndex = 0
      have hclimb := nextSlideTimes_climb n { s with currentIndex := 0 } (by rw [hmax]; simp)
      have hm : maxIndex (nextSlideTimes n { s with currentIndex := 0 }) = (n : Int) := by
        rw [← hmax]
        unfold maxIndex
        rw [nextSlideTimes_totalPages]
      rw [nextSlide_currentIndex, hm, hclimb]
      simp
  · rw [nextSlide_currentIndex]
    unfold specMaxIndex maxIndex
    split_ifs <;> omega

/-- C10: one run of `toggleViewAll` flips `isViewAll` and leaves `currentIndex` as
it is; two runs restore both. -/
theorem toggleViewAll_involutive (s : Carousel) :
    (toggleViewAll s).state.isViewAll = !s.isViewAll ∧
    (toggleViewAll s).state.currentIndex = s.currentIndex ∧
    (toggleViewAll (toggleViewAll s).state).state.isViewAll = s.isViewAll ∧
    (toggleViewAll (toggleViewAll s).state).state.currentIndex = s.currentIndex := by
  have one : ∀ u : Carousel, (toggleViewAll u).state.isViewAll = !u.isViewAll ∧
      (toggleViewAll u).state.currentIndex = u.currentIndex := by
    intro u
    unfold toggleViewAll
    dsimp only
    by_cases hv : (!u.viewAllBtn) = true
    · rw [if_pos hv]; exact ⟨rfl, rfl⟩
    · rw [if_neg hv]; exact updateCarousel_keeps _
  refine ⟨(one s).1, (one s).2, ?_, ?_⟩
  · rw [(one _).1, (one s).1, Bool.not_not]
  · rw [(one _).2, (one s).2]

/-- C7: a `touchend` at `x` computes the difference `diff = startX - x` (a double
subtraction) and, with an active session, runs `nextSlide` once when `diff > 50`,
`prevSlide` once when `diff < -50`, and nothing otherwise; without an active session
it does nothing; afterwards `isDragging` is false. For a session started by
`touchstart` at `x0`, `startX` is `x0`. A session started at 300 and ended at 240
runs `nextSlide`, one ended at 270 runs nothing. -/
theorem touchend_swipe (s : Carousel) (x0 x : ℚ) :
    touchend x s =
      (if s.isDragging = false then Run.ok s
       else if dsub s.startX (roundDouble x) > 50 then
        nextSlide { s with isDragging := false }
       else if dsub s.startX (roundDouble x) < -50 then
        prevSlide { s with isDragging := false }
       else Run.ok { s with isDragging := false }) ∧
    (touchend x s).state.isDragging = false ∧
    touchend x (touchstart x0 s).state =
      (if dsub (roundDouble x0) (roundDouble x) > 50 then
        nextSlide { s with startX := roundDouble x0, isDragging := false }
       else if dsub (roundDouble x0) (roundDouble x) < -50 then
        prevSlide { s with startX := roundDouble x0, isDragging := false }
       else Run.ok { s with startX := roundDouble x0, isDragging := false }) ∧
    touchend 240 (touchstart 300 s).state =
      nextSlide { s with startX := 300, isDragging := false } ∧
    touchend 270 (touchstart 300 s).state =
      Run.ok { s with startX := 300, isDragging := false } := by
  have h300 : roundDouble 300 = 300 := roundDouble_ofInt_small 300 (by norm_num) _ (by norm_num)
  have h240 : roundDouble 240 = 240 := roundDouble_ofInt_small 240 (by norm_num) _ (by norm_num)
  have h270 : roundDouble 270 = 270 := roundDouble_ofInt_small 270 (by norm_num) _ (by norm_num)
  have h60 : dsub 300 240 = 60 := by
    unfold dsub
    norm_num
    exact roundDouble_ofInt_small 60 (by norm_num) _ (by norm_num)
  have h30 : dsub 300 270 = 30 := by
    unfold dsub
    norm_num
    exact roundDouble_ofInt_small 30 (by norm_num) _ (by norm_num)
  refine ⟨touchend_eq s x, ?_, touch_session s x0 x, ?_, ?_⟩
  · rw [touchend_eq s x]
    split_ifs with hd h1 h2
    · exact hd
    · rw [nextSlide_isDragging]
    · rw [prevSlide_isDragging]
    · rfl
  · rw [touch_session, h300, h240, h60]
    norm_num
  · rw [touch_session, h300, h270, h30]
    norm_num

/-- C8: on a non-empty list of sections in document order the scroll fallback
selects the id of the last section whose `offsetTop ≤ scrollY + headerHeight + 20`
(the sum as the script computes it), and the id of the first section when no
section qualifies. -/
theorem scrollFallback_last_qualifying (first : Section) (rest : List Section)
    (headerHeight : Int) (scrollY : ℚ) :
    scrollFallback (first :: rest) headerHeight scrollY =
      some (specCurrentSection first rest headerHeight scrollY) := by
  unfold scrollFallback specCurrentSection
  dsimp only
  rw [foldl_last_qualifying]

/-- C9, as stated, fails: for target 150, 440 ms after the start, the exact formula
`floor(min(t / 1200, 1) * target)` gives 55, and the frame callback writes 54 (the
double quotient `440 / 1200` lies below `11 / 30`). -/
theorem step_differs_from_exact_formula :
    specDisplayed 150 (440 - 0) = 55 ∧ (step 150 0 440).textContent = 54 := by
  constructor
  · unfold specDisplayed
    rw [Int.floor_eq_iff]
    norm_num
  · have h := step_shape 150 0 440 roundDouble_150
    have h0 : roundDouble 0 = 0 := roundDouble_zero
    have h440 : roundDouble 440 = 440 :=
      roundDouble_ofInt_small 440 (by norm_num) _ (by norm_num)
    have hsub : dsub 440 0 = 440 := by
      unfold dsub
      rw [sub_zero]
      exact h440
    have hdiv : ddiv 440 1200 = 6605279453476727 / 18014398509481984 := by
      unfold ddiv
      rw [roundDouble_eval _ (-2) 6605279453476727 (by norm_num)
        (by norm_num [abs_of_pos]) (by norm_num [abs_of_pos]) (by norm_num) (by norm_num)]
      norm_num
    have hmul : dmul (6605279453476727 / 18014398509481984) ((150 : ℤ) : ℚ) =
        7740561859543039 / 140737488355328 := by
      unfold dmul
      rw [roundDouble_eval _ 5 7740561859543039 (by norm_num)
        (by norm_num [abs_of_pos]) (by norm_num [abs_of_pos]) (by norm_num) (by norm_num)]
      norm_num
    rw [h0, h440, hsub, if_pos (by norm_num), hdiv, hmul] at h
    rw [h]
    show ⌊(7740561859543039 / 140737488355328 : ℚ)⌋ = 54
    rw [Int.floor_eq_iff]
    norm_num

/-- C9, amended: for a target that is a double (every integer up to `2 ^ 53` is),
with `t` the double difference `now - startTime`, the frame callback writes the
floor of the double product of `target` with the double quotient `t / 1200` and
asks for another frame when `t < 1200`, and writes `target` itself and asks for no
frame when `t ≥ 1200`. With target 150 it writes 75 at `t = 600` and 150 from
`t = 1200` on. -/
theorem step_frame (target : Int) (startTime now : ℚ)
    (htarget : roundDouble (target : ℚ) = target) :
    step target startTime now =
      (if dsub (roundDouble now) (roundDouble startTime) < 1200 then
        { textContent :=
            ⌊dmul (ddiv (dsub (roundDouble now) (roundDouble startTime)) 1200) target⌋
          again := true }
       else { textContent := target, again := false }) ∧
    step 150 0 600 = { textContent := 75, again := true } ∧
    step 150 startTime now =
      (if dsub (roundDouble now) (roundDouble startTime) < 1200 then
        { textContent :=
            ⌊dmul (ddiv (dsub (roundDouble now) (roundDouble startTime)) 1200) 150⌋
          again := true }
       else { textContent := 150, again := false }) := by
  refine ⟨step_shape target startTime now htarget, ?_, ?_⟩
  · have h := step_shape 150 0 600 roundDouble_150
    have h0 : roundDouble 0 = 0 := roundDouble_zero
    have h600 : roundDouble 600 = 600 :=
      roundDouble_ofInt_small 600 (by norm_num) _ (by norm_num)
    have hsub : dsub 600 0 = 600 := by
      unfold dsub
      rw [sub_zero]
      exact h600
    have hdiv : ddiv 600 1200 = 1 / 2 := by
      unfold ddiv
      have := roundDouble_scaled_int 1 (-1) (by norm_num) (by norm_num)
      norm_num at this ⊢
      exact this
    have hmul : dmul (1 / 2) ((150 : ℤ) : ℚ) = 75 := by
      unfold dmul
      norm_num
      exact roundDouble_ofInt_small 75 (by norm_num) _ (by norm_num)
    rw [h0, h600, hsub, if_pos (by norm_num), hdiv, hmul] at h
    rw [h]
    norm_num
  · have h := step_shape 150 startTime now roundDouble_150
    simpa using h

/-- The target 150 is a double, and the frame written 600 ms after the start is 75
with a further frame requested. -/
theorem step_frame_witness :
    roundDouble ((150 : ℤ) : ℚ) = ((150 : ℤ) : ℚ) ∧
    step 150 0 600 = { textContent := 75, again := true } :=
  ⟨roundDouble_intCast 150 (by norm_num),
    (step_frame 150 0 600 (roundDouble_intCast 150 (by norm_num))).2.1⟩

/-- C4 (the code departs from it): with no card `maxIndex` of the claim is 0, yet
`prevSlide` run at index 0 stores `ceil(0 / pageSize) - 1 = -1`; the state is the one
`setupCarousel` leaves on a page with an empty track, and a click on the previous
arrow gets there. -/
theorem prevSlide_no_cards_negative :
    (∀ s : Carousel, specMaxIndex { s with totalCards := 0, currentIndex := 0 } = 0 ∧
      (prevSlide { s with totalCards := 0, currentIndex := 0 }).state.currentIndex = -1) ∧
    (setupCarousel emptyPage).map
      (fun r => (r.state.totalCards, r.state.cardsPerView, r.state.currentIndex,
        (fire Event.prevClick r.state).state.currentIndex)) = some (0, 3, 0, -1) := by
  constructor
  · intro s
    have hz : totalPages { s with totalCards := 0, currentIndex := 0 } = 0 :=
      totalPages_of_no_cards _ rfl
    constructor
    · unfold specMaxIndex
      rw [hz]; rfl
    · rw [prevSlide_currentIndex]
      unfold maxIndex
      rw [hz]; rfl
  · simp [setupCarousel, emptyPage, desktopPage, cardsPerViewAt, createDots, updateCarousel,
      Run.andThen, Run.ok, Run.raise, totalPages, fire, prevSlide_currentIndex, maxIndex]

/-- C2 (the code departs from it): on a page with an empty track a click on the
previous arrow leaves `currentIndex = -1` although `totalItems = 0`, so a reachable
state breaks the invariant. -/
theorem specInvariant_broken_without_cards :
    ∃ s, Reachable emptyPage s ∧ s.totalCards = 0 ∧ s.currentIndex = -1 ∧
      ¬ SpecInvariant s := by
  obtain ⟨r, hr⟩ := setupCarousel_past_guard emptyPage rfl rfl rfl
  obtain ⟨h1, _, _, _, h5, _⟩ := setupCarousel_state emptyPage r hr
  have hc0 : r.state.totalCards = 0 := h1
  have hz := totalPages_of_no_cards r.state hc0
  have hcur : (fire Event.prevClick r.state).state.currentIndex = -1 := by
    show (prevSlide r.state).state.currentIndex = -1
    rw [prevSlide_currentIndex, h5]
    unfold maxIndex
    rw [hz]; rfl
  have hcards : (fire Event.prevClick r.state).state.totalCards = 0 :=
    (fire_navStep Event.prevClick r.state).1.trans hc0
  refine ⟨_, Reachable.fire Event.prevClick (Reachable.setup hr), hcards, hcur, ?_⟩
  intro hinv
  have := hinv.2 hcards
  rw [hcur] at this
  exact absurd this (by decide)

/-- C5 (the code departs from it): the resize listener keeps `cardsPerView` and
`currentIndex` whatever the new width is. Seven cards set up at width 1024 and
resized to width 500 still have page size 3, where the breakpoint rule gives 1: three
dots are rebuilt, and the next page is drawn three cards further. -/
theorem onResize_keeps_page_size :
    (∀ s : Carousel, (onResize s).state.cardsPerView = s.cardsPerView ∧
      (onResize s).state.currentIndex = s.currentIndex) ∧
    (setupCarousel desktopPage).map
      (fun r => (r.threw, r.state.cardsPerView,
        (fire (Event.resize 500 300) r.state).threw,
        (fire (Event.resize 500 300) r.state).state.innerWidth,
        cardsPerViewAt (fire (Event.resize 500 300) r.state).state.innerWidth,
        (fire (Event.resize 500 300) r.state).state.cardsPerView,
        (fire (Event.resize 500 300) r.state).state.dots,
        (fire Event.nextClick (fire (Event.resize 500 300) r.state).state).state.layout)) =
      some (false, 3, false, 500, 1, 3, 3, Layout.paged (-996)) := by
  constructor
  · intro s
    exact ⟨(onResize_fields s).2.1, (onResize_fields s).2.2.2.2.1⟩
  · simp [setupCarousel, desktopPage, cardsPerViewAt, createDots, updateCarousel, updateDots,
      nextSlide, maxIndex, Run.andThen, Run.ok, Run.raise, fire, onResize,
      totalPages_seven_by_three]

/-- C6 (the code departs from it): `setupCarousel` raises on a page without the dots
container (`updateCarousel` writes its style unguarded, although `createDots` guards
it), on a page without the view-all button (line 411), and on a page whose track has
no card (`cards[0].offsetWidth`). -/
theorem setupCarousel_raises :
    (setupCarousel pageWithoutDots).map (fun r => r.threw) = some true ∧
    (setupCarousel pageWithoutViewAll).map (fun r => r.threw) = some true ∧
    (setupCarousel emptyPage).map (fun r => r.threw) = some true := by
  refine ⟨?_, ?_, ?_⟩
  · simp [setupCarousel, pageWithoutDots, desktopPage, cardsPerViewAt, createDots,
      updateCarousel, Run.andThen, Run.ok, Run.raise]
  · simp [setupCarousel, pageWithoutViewAll, desktopPage, Run.raise]
  · simp [setupCarousel, emptyPage, desktopPage, cardsPerViewAt, createDots, updateCarousel,
      Run.andThen, Run.ok, Run.raise]

end Portofolio
